import Mathlib

/-!
Shallow embedding of `rocket_async_compression` (`src/lib.rs`): the `Encoding`
vocabulary, the negotiation utilities (`already_encoded`, `skip_encoding`,
`accepted_algorithms`), the buffer compressor (`compress_body`) and the
streaming compression hook (`compress_response`), together with theorems
settling the specification claims about them.

Modelling conventions:
* Rust `&str` values become Lean `String`; the per-character operations that
  the code relies on (`split(',')`, `trim`) are re-implemented structurally
  over `List Char` so that the kernel can evaluate them.
* Rocket header names are case-insensitive (`Uncased` compares ASCII
  case-insensitively); this is modelled by `ucEq`.
* A response body is opaque: the model only records whether it is the original
  stream, the empty placeholder left behind by `Body::take`, or a
  compressor-wrapped stream (which encoder, at which quality level, over which
  upstream body).
* The external codec (`async_compression`) is a black box: the buffered
  encoder + `tokio::io::copy` pipeline of `compress_body` is modelled by an
  abstract read stream (a list of chunk reads, each of which may fail) chosen
  per algorithm and quality level, drained by the structural loop `copyLoop`.
-/

namespace RocketAsyncCompression

/-- ASCII lower-casing of a character, as used by Rocket's `UncasedStr`
(`eq_ignore_ascii_case`). -/
def asciiLower (c : Char) : Char :=
  if 'A' ≤ c ∧ c ≤ 'Z' then Char.ofNat (c.toNat + 32) else c

/-- ASCII lower-casing of a string. -/
def lowerStr (s : String) : String :=
  String.mk (s.data.map asciiLower)

/-- Case-insensitive string comparison, modelling Rocket's `UncasedStr`
equality used for header names and media-type components. -/
def ucEq (a b : String) : Bool :=
  lowerStr a == lowerStr b

/-- `str::split(',')` on the character list: splits at every comma, keeping
empty pieces (`"".split(',')` yields one empty piece). -/
def splitOnComma : List Char → List (List Char)
  | [] => [[]]
  | c :: rest =>
    let r := splitOnComma rest
    if c = ',' then [] :: r
    else
      match r with
      | [] => [[c]]
      | s :: ss => (c :: s) :: ss

/-- Rust's `str::split(',')`, producing the pieces as strings. -/
def rustSplit (s : String) : List String :=
  (splitOnComma s.data).map String.mk

/-- Rust's `str::trim`: drop whitespace from both ends. -/
def rustTrim (s : String) : String :=
  String.mk (((s.data.dropWhile Char.isWhitespace).reverse.dropWhile
    Char.isWhitespace).reverse)

/-- `const CONTENT_ENCODING: &str = "content-encoding";` (`lib.rs` line 43) -/
def CONTENT_ENCODING : String := "content-encoding"

/-- The `Encoding` enum of `lib.rs` (lines 45-62). -/
inductive Encoding where
  | Chunked
  | Brotli
  | Gzip
  | Deflate
  | Compress
  | Identity
  | Trailers
  | EncodingExt (s : String)
deriving DecidableEq, Repr

/-- The `Display` implementation for `Encoding` (`lib.rs` lines 64-77):
the canonical token written for each variant. -/
def Encoding.fmt : Encoding → String
  | Encoding.Chunked => "chunked"
  | Encoding.Brotli => "br"
  | Encoding.Gzip => "gzip"
  | Encoding.Deflate => "deflate"
  | Encoding.Compress => "compress"
  | Encoding.Identity => "identity"
  | Encoding.Trailers => "trailers"
  | Encoding.EncodingExt s => s

/-- The `FromStr` implementation for `Encoding` (`lib.rs` lines 79-94).
Its error type is `Infallible`, modelled by the empty type: every branch
returns `Ok`. -/
def Encoding.from_str (s : String) : Except Empty Encoding :=
  match s with
  | "chunked" => Except.ok Encoding.Chunked
  | "br" => Except.ok Encoding.Brotli
  | "deflate" => Except.ok Encoding.Deflate
  | "gzip" => Except.ok Encoding.Gzip
  | "compress" => Except.ok Encoding.Compress
  | "identity" => Except.ok Encoding.Identity
  | "trailers" => Except.ok Encoding.Trailers
  | _ => Except.ok (Encoding.EncodingExt s)

/-- `async_compression::Level`: the quality parameter handed to the codec. -/
inductive Level where
  | Fastest
  | Best
  | Default
  | Precise (q : Int)
deriving DecidableEq, Repr

/-- `CachedEncoding`, declared in the crate's `fairing` module (not among the
sources); `compress_body`'s exhaustive match (`lib.rs` lines 151-179) shows it
has exactly the variants `Brotli` and `Gzip`. -/
inductive CachedEncoding where
  | Brotli
  | Gzip
deriving DecidableEq, Repr

/-- An opaque I/O error (`std::io::Error`), identified by a code. -/
structure IOErr where
  code : Nat
deriving DecidableEq, Repr

/-- A response body as `compress_response` observes it: the original opaque
stream, the empty placeholder left by `Body::take`, or a compressor stream
(`BrotliEncoder`/`GzipEncoder` over a `BufReader` of an upstream body, at a
recorded quality level) installed by `set_streamed_body`. -/
inductive Body where
  | orig (id : Nat)
  | empty
  | brotliStream (level : Level) (upstream : Body)
  | gzipStream (level : Level) (upstream : Body)
deriving DecidableEq, Repr

/-- A header map: a list of (name, value) pairs; lookup is case-insensitive
on the name, as in Rocket's `HeaderMap`. -/
def headersGet (headers : List (String × String)) (name : String) : List String :=
  (headers.filter (fun h => ucEq h.1 name)).map Prod.snd

/-- Rocket's `Response::set_header`: replace every value stored under the
(case-insensitive) name with the single new value. -/
def setHeader (headers : List (String × String)) (name value : String) :
    List (String × String) :=
  headers.filter (fun h => !(ucEq h.1 name)) ++ [(name, value)]

/-- A media type: top-level type and subtype (media-type parameters, which no
claim mentions, are omitted; Rocket compares both components
case-insensitively). -/
structure MediaType where
  top : String
  sub : String
deriving DecidableEq, Repr

/-- The request view used by the negotiation code: its header map
(`Accept-Encoding` is read from it, possibly multi-valued). -/
structure Request where
  headers : List (String × String)
deriving DecidableEq, Repr

/-- The response view used by the compression hook: status, header map, the
parsed `Content-Type` (Rocket's `response.content_type()`), and the body. -/
structure Response where
  status : Nat
  headers : List (String × String)
  contentType : Option MediaType
  body : Body
deriving DecidableEq, Repr

/-- `CompressionUtils::already_encoded` (`lib.rs` lines 99-101): true iff the
response carries at least one `Content-Encoding` header value. -/
def already_encoded (response : Response) : Bool :=
  !(headersGet response.headers "Content-Encoding").isEmpty

/-- `CompressionUtils::set_body_and_encoding` (`lib.rs` lines 103-113): set
the `Content-Encoding` header to the encoding's canonical token and install
the given stream as the body. -/
def set_body_and_encoding (response : Response) (body : Body)
    (encoding : Encoding) : Response :=
  { response with
    headers := setHeader response.headers CONTENT_ENCODING encoding.fmt
    body := body }

/-- `CompressionUtils::skip_encoding` (`lib.rs` lines 115-129): with no
content type, do not skip; otherwise skip iff some exclusion matches, where a
`*` subtype matches on the top-level type alone and any other exclusion
requires the full (case-insensitive) type/subtype equality. -/
def skip_encoding (content_type : Option MediaType)
    (exclusions : List MediaType) : Bool :=
  match content_type with
  | some content_type =>
    exclusions.any fun exc_media_type =>
      if ucEq exc_media_type.sub "*" then
        ucEq exc_media_type.top content_type.top
      else
        ucEq exc_media_type.top content_type.top &&
          ucEq exc_media_type.sub content_type.sub
  | none => false

/-- The trimmed comma-separated tokens of all `Accept-Encoding` header values
of the request (the `get → flat_map(split(','))  → map(trim)` part of
`accepted_algorithms`, `lib.rs` lines 133-137). -/
def acceptTokens (request : Request) : List String :=
  ((headersGet request.headers "Accept-Encoding").flatMap rustSplit).map rustTrim

/-- `CompressionUtils::accepted_algorithms` (`lib.rs` lines 132-144): fold the
tokens into `(accepts_gzip, accepts_br)` by exact comparison with `"gzip"` /
`"br"`. -/
def accepted_algorithms (request : Request) : Bool × Bool :=
  (acceptTokens request).foldl
    (fun p encoding => (p.1 || encoding == "gzip", p.2 || encoding == "br"))
    (false, false)

/-- One read from the encoder stream: a chunk of compressed bytes, or an I/O
failure. -/
abbrev ReadResult : Type := Except IOErr (List Nat)

/-- `rocket::tokio::io::copy(&mut compressor, &mut out)` followed by
`Ok(out)`: drain the reads into the accumulator; the first failing read
aborts the whole operation with that error, discarding the accumulator. -/
def copyLoop (out : List Nat) : List ReadResult → Except IOErr (List Nat)
  | [] => Except.ok out
  | Except.error e :: _ => Except.error e
  | Except.ok chunk :: rest => copyLoop (out ++ chunk) rest

/-- `CompressionUtils::compress_body` (`lib.rs` lines 146-180).
`encoderReads alg lvl` is the abstract read stream of the codec encoder for
algorithm `alg` constructed with quality `lvl` over the source body; the
function mirrors the source: for brotli a `Default` level is first replaced
by `Precise 4`, then the encoder is drained into a fresh buffer. -/
def compress_body (encoderReads : CachedEncoding → Level → List ReadResult)
    (encoding : CachedEncoding) (level : Level) : Except IOErr (List Nat) :=
  match encoding with
  | CachedEncoding.Brotli =>
    let level :=
      match level with
      | Level.Default => Level.Precise 4
      | other => other
    copyLoop [] (encoderReads CachedEncoding.Brotli level)
  | CachedEncoding.Gzip =>
    copyLoop [] (encoderReads CachedEncoding.Gzip level)

/-- `CompressionUtils::compress_response` (`lib.rs` lines 182-222): the
response hook. Early-returns leave the response untouched; otherwise the body
is taken (leaving the placeholder) and a brotli (preferred) or gzip encoder
stream is installed together with the `Content-Encoding` header. -/
def compress_response (request : Request) (response : Response)
    (exclusions : List MediaType) (level : Level) : Response :=
  if already_encoded response then response
  else
    let content_type := response.contentType
    if skip_encoding content_type exclusions then response
    else
      let p := accepted_algorithms request
      let accepts_gzip := p.1
      let accepts_br := p.2
      if !accepts_gzip && !accepts_br then response
      else
        let body := response.body
        let response := { response with body := Body.empty }
        if accepts_br then
          set_body_and_encoding response (Body.brotliStream level body)
            Encoding.Brotli
        else if accepts_gzip then
          set_body_and_encoding response (Body.gzipStream level body)
            Encoding.Gzip
        else response

/-! ### Helper lemmas -/

theorem ucEq_iff (a b : String) : ucEq a b = true ↔ lowerStr a = lowerStr b := by
  simp [ucEq]

theorem ucEq_symm (a b : String) : ucEq a b = ucEq b a := by
  by_cases h : lowerStr a = lowerStr b
  · simp [ucEq, h]
  · have h' : ¬lowerStr b = lowerStr a := fun e => h e.symm
    simp [ucEq, h, h']

theorem ucEq_trans {a b c : String} (h1 : ucEq a b = true) (h2 : ucEq b c = true) :
    ucEq a c = true := by
  rw [ucEq_iff] at *
  exact h1.trans h2

theorem headersGet_setHeader_same (hs : List (String × String)) (n v name : String)
    (hn : ucEq name n = true) :
    headersGet (setHeader hs n v) name = [v] := by
  unfold setHeader headersGet
  rw [List.filter_append, List.filter_filter]
  have h1 : ∀ a : String × String, (ucEq a.1 name && !(ucEq a.1 n)) = false := by
    intro a
    cases ha : ucEq a.1 name with
    | false => simp [ha]
    | true =>
      have : ucEq a.1 n = true := ucEq_trans ha hn
      simp [ha, this]
  have h2 : ucEq n name = true := by rw [ucEq_symm]; exact hn
  simp [h1, h2, List.filter]

theorem headersGet_setHeader_other (hs : List (String × String)) (n v name : String)
    (h : ucEq name n = false) :
    headersGet (setHeader hs n v) name = headersGet hs name := by
  unfold setHeader headersGet
  rw [List.filter_append, List.filter_filter]
  have h1 : ∀ a : String × String, (ucEq a.1 name && !(ucEq a.1 n)) = ucEq a.1 name := by
    intro a
    cases ha : ucEq a.1 name with
    | false => simp [ha]
    | true =>
      have hn : ucEq a.1 n = false := by
        cases hx : ucEq a.1 n with
        | false => rfl
        | true =>
          have : ucEq name n = true :=
            ucEq_trans (by rw [ucEq_symm]; exact ha) hx
          rw [h] at this
          exact absurd this (by simp)
      simp [ha, hn]
  have h2 : ucEq n name = false := by rw [ucEq_symm]; exact h
  simp [h1, h2, List.filter]

theorem foldl_or_pair (l : List String) (a b : Bool) :
    l.foldl (fun p encoding => (p.1 || encoding == "gzip", p.2 || encoding == "br"))
        (a, b) =
      (a || l.any (fun t => t == "gzip"), b || l.any (fun t => t == "br")) := by
  induction l generalizing a b with
  | nil => simp
  | cons x xs ih => simp [List.foldl_cons, List.any_cons, ih, Bool.or_assoc]

theorem accepted_fst_iff (request : Request) :
    (accepted_algorithms request).1 = true ↔ "gzip" ∈ acceptTokens request := by
  unfold accepted_algorithms
  rw [foldl_or_pair]
  simp [List.any_eq_true]

theorem accepted_snd_iff (request : Request) :
    (accepted_algorithms request).2 = true ↔ "br" ∈ acceptTokens request := by
  unfold accepted_algorithms
  rw [foldl_or_pair]
  simp [List.any_eq_true]

theorem compress_response_noop_aux (request : Request) (response : Response)
    (exclusions : List MediaType) (level : Level)
    (h : already_encoded response = true ∨
      skip_encoding response.contentType exclusions = true ∨
      accepted_algorithms request = (false, false)) :
    compress_response request response exclusions level = response := by
  unfold compress_response
  rcases h with h | h | h
  · simp [h]
  · by_cases ha : already_encoded response <;> simp [ha, h]
  · by_cases ha : already_encoded response <;>
      by_cases hs : skip_encoding response.contentType exclusions <;>
        simp [ha, hs, h]

theorem compress_response_br_aux (request : Request) (response : Response)
    (exclusions : List MediaType) (level : Level)
    (h1 : already_encoded response = false)
    (h2 : skip_encoding response.contentType exclusions = false)
    (hb : (accepted_algorithms request).2 = true) :
    compress_response request response exclusions level =
      set_body_and_encoding { response with body := Body.empty }
        (Body.brotliStream level response.body) Encoding.Brotli := by
  unfold compress_response
  simp [h1, h2, hb]

theorem compress_response_gz_aux (request : Request) (response : Response)
    (exclusions : List MediaType) (level : Level)
    (h1 : already_encoded response = false)
    (h2 : skip_encoding response.contentType exclusions = false)
    (hg : (accepted_algorithms request).1 = true)
    (hb : (accepted_algorithms request).2 = false) :
    compress_response request response exclusions level =
      set_body_and_encoding { response with body := Body.empty }
        (Body.gzipStream level response.body) Encoding.Gzip := by
  unfold compress_response
  simp [h1, h2, hg, hb]

theorem copyLoop_error (pre rest : List ReadResult) (e : IOErr) (out : List Nat)
    (hpre : ∀ r ∈ pre, ∃ chunk, r = Except.ok chunk) :
    copyLoop out (pre ++ Except.error e :: rest) = Except.error e := by
  induction pre generalizing out with
  | nil => rfl
  | cons r pre ih =>
    obtain ⟨chunk, rfl⟩ := hpre r (by simp)
    simpa [copyLoop] using ih (out ++ chunk) fun r hr => hpre r (by simp [hr])

theorem bool_eq_false {b : Bool} (h : ¬b = true) : b = false := by
  cases b
  · rfl
  · exact absurd rfl h

/-! ### Claim theorems -/

/-- C3: whenever a no-op condition holds — the response already carries a
`Content-Encoding` header, its content type matches a configured exclusion, or
the request accepts neither gzip nor br — `compress_response` returns the
response completely unchanged (same status, headers and body). -/
theorem compress_response_unchanged_on_noop (request : Request)
    (response : Response) (exclusions : List MediaType) (level : Level)
    (h : already_encoded response = true ∨
      skip_encoding response.contentType exclusions = true ∨
      accepted_algorithms request = (false, false)) :
    compress_response request response exclusions level = response :=
  compress_response_noop_aux request response exclusions level h

theorem compress_response_unchanged_on_noop_witness :
    compress_response ⟨[("User-Agent", "curl")]⟩
        ⟨200, [("X-Custom", "v")], none, Body.orig 3⟩ [] Level.Default =
      ⟨200, [("X-Custom", "v")], none, Body.orig 3⟩ :=
  compress_response_unchanged_on_noop _ _ _ _ (Or.inr (Or.inr (by decide)))

/-- C4: `accepted_algorithms` splits every `Accept-Encoding` header value on
commas, trims each token, and returns `(accepts_gzip, accepts_br)`, each flag
true iff some trimmed token is exactly `"gzip"` / `"br"`; `q=` suffixes and
`*` are never recognized (only exact matches count), and a request without
the header yields `(false, false)`. -/
theorem accepted_algorithms_correct (request : Request) :
    accepted_algorithms request =
      ((acceptTokens request).any (fun t => t == "gzip"),
        (acceptTokens request).any (fun t => t == "br")) ∧
    ((accepted_algorithms request).1 = true ↔ "gzip" ∈ acceptTokens request) ∧
    ((accepted_algorithms request).2 = true ↔ "br" ∈ acceptTokens request) ∧
    (headersGet request.headers "Accept-Encoding" = [] →
      accepted_algorithms request = (false, false)) := by
  refine ⟨?_, accepted_fst_iff request, accepted_snd_iff request, fun h => ?_⟩
  · unfold accepted_algorithms
    rw [foldl_or_pair]
    simp
  · simp [accepted_algorithms, acceptTokens, h]

theorem accepted_algorithms_correct_witness :
    (accepted_algorithms ⟨[("Accept-Encoding", "gzip;q=0.5 , br")]⟩).2 = true ∧
    accepted_algorithms ⟨[("Host", "example.com")]⟩ = (false, false) :=
  ⟨(accepted_algorithms_correct ⟨[("Accept-Encoding", "gzip;q=0.5 , br")]⟩).2.2.1.mpr
      (by decide),
    (accepted_algorithms_correct ⟨[("Host", "example.com")]⟩).2.2.2 (by decide)⟩

/-- C5: `skip_encoding` is false for an absent content type; otherwise it is
true iff some exclusion matches — a `*` subtype matches on the top-level type
alone, any other exclusion needs the full type/subtype to agree — and when it
is true, `compress_response` performs no compression at all. -/
theorem skip_encoding_correct (ct : MediaType) (exclusions : List MediaType)
    (request : Request) (response : Response) (level : Level) :
    skip_encoding none exclusions = false ∧
    (skip_encoding (some ct) exclusions = true ↔
      ∃ exc ∈ exclusions,
        (ucEq exc.sub "*" = true ∧ ucEq exc.top ct.top = true) ∨
        (ucEq exc.sub "*" = false ∧ ucEq exc.top ct.top = true ∧
          ucEq exc.sub ct.sub = true)) ∧
    (skip_encoding response.contentType exclusions = true →
      compress_response request response exclusions level = response) := by
  refine ⟨rfl, ?_, fun h => compress_response_noop_aux request response
    exclusions level (Or.inr (Or.inl h))⟩
  simp only [skip_encoding, List.any_eq_true]
  refine exists_congr fun exc => and_congr_right fun _ => ?_
  cases hw : ucEq exc.sub "*" with
  | true => simp [hw]
  | false => simp [hw]

theorem skip_encoding_correct_witness :
    compress_response ⟨[("Accept-Encoding", "gzip, br")]⟩
        ⟨200, [], some ⟨"image", "png"⟩, Body.orig 1⟩ [⟨"image", "*"⟩]
        Level.Default =
      ⟨200, [], some ⟨"image", "png"⟩, Body.orig 1⟩ :=
  (skip_encoding_correct ⟨"image", "png"⟩ [⟨"image", "*"⟩]
    ⟨[("Accept-Encoding", "gzip, br")]⟩
    ⟨200, [], some ⟨"image", "png"⟩, Body.orig 1⟩ Level.Default).2.2 (by decide)

/-- C6: `Encoding` parsing is total — `from_str` always returns `Ok`, mapping
each of the seven known tokens case-sensitively to its variant and any other
string `s` to `EncodingExt s` verbatim — and the `Display` rendering is its
inverse: `fmt (from_str s) = s` for every string. -/
theorem from_str_total_roundtrip :
    (∀ s : String, ∃ e, Encoding.from_str s = Except.ok e ∧ e.fmt = s) ∧
    Encoding.from_str "chunked" = Except.ok Encoding.Chunked ∧
    Encoding.from_str "br" = Except.ok Encoding.Brotli ∧
    Encoding.from_str "deflate" = Except.ok Encoding.Deflate ∧
    Encoding.from_str "gzip" = Except.ok Encoding.Gzip ∧
    Encoding.from_str "compress" = Except.ok Encoding.Compress ∧
    Encoding.from_str "identity" = Except.ok Encoding.Identity ∧
    Encoding.from_str "trailers" = Except.ok Encoding.Trailers ∧
    (∀ s : String,
      s ∉ ["chunked", "br", "deflate", "gzip", "compress", "identity",
        "trailers"] →
      Encoding.from_str s = Except.ok (Encoding.EncodingExt s)) := by
  refine ⟨?_, rfl, rfl, rfl, rfl, rfl, rfl, rfl, ?_⟩
  · intro s
    unfold Encoding.from_str
    split <;> simp_all [Encoding.fmt]
  · intro s hs
    unfold Encoding.from_str
    split <;> simp_all

theorem from_str_total_roundtrip_witness :
    (∃ e, Encoding.from_str "x-zstd" = Except.ok e ∧ e.fmt = "x-zstd") ∧
    Encoding.from_str "x-zstd" = Except.ok (Encoding.EncodingExt "x-zstd") :=
  ⟨from_str_total_roundtrip.1 "x-zstd",
    from_str_total_roundtrip.2.2.2.2.2.2.2.2 "x-zstd" (by decide)⟩

/-- C1: whenever the request's `Accept-Encoding` tokens include both `"br"`
and `"gzip"`, `compress_response` chooses brotli: if it compresses at all, the
installed compressor is the brotli encoder and the `Content-Encoding` header
is exactly `["br"]` — never gzip. -/
theorem compress_response_prefers_brotli (request : Request)
    (response : Response) (exclusions : List MediaType) (level : Level)
    (_hg : "gzip" ∈ acceptTokens request) (hb : "br" ∈ acceptTokens request) :
    compress_response request response exclusions level = response ∨
    (compress_response request response exclusions level =
        set_body_and_encoding { response with body := Body.empty }
          (Body.brotliStream level response.body) Encoding.Brotli ∧
      headersGet (compress_response request response exclusions level).headers
          "Content-Encoding" = ["br"]) := by
  have hb' : (accepted_algorithms request).2 = true :=
    (accepted_snd_iff request).mpr hb
  by_cases h1 : already_encoded response = true
  · exact Or.inl (compress_response_noop_aux _ _ _ _ (Or.inl h1))
  · by_cases h2 : skip_encoding response.contentType exclusions = true
    · exact Or.inl (compress_response_noop_aux _ _ _ _ (Or.inr (Or.inl h2)))
    · right
      have heq := compress_response_br_aux request response exclusions level
        (bool_eq_false h1) (bool_eq_false h2) hb'
      refine ⟨heq, ?_⟩
      rw [heq]
      unfold set_body_and_encoding
      exact headersGet_setHeader_same _ _ _ _ (by decide)

theorem compress_response_prefers_brotli_witness :
    compress_response ⟨[("Accept-Encoding", "gzip, br")]⟩
        ⟨200, [], none, Body.orig 0⟩ [] Level.Default =
      ⟨200, [], none, Body.orig 0⟩ ∨
    (compress_response ⟨[("Accept-Encoding", "gzip, br")]⟩
        ⟨200, [], none, Body.orig 0⟩ [] Level.Default =
      set_body_and_encoding ⟨200, [], none, Body.empty⟩
        (Body.brotliStream Level.Default (Body.orig 0)) Encoding.Brotli ∧
      headersGet (compress_response ⟨[("Accept-Encoding", "gzip, br")]⟩
          ⟨200, [], none, Body.orig 0⟩ [] Level.Default).headers
          "Content-Encoding" = ["br"]) :=
  compress_response_prefers_brotli _ _ _ _ (by decide) (by decide)

/-- C2 counterexample: on the streaming path, a request for the default
quality level reaches the brotli encoder as `Level.Default`, not as the fixed
numeric quality `Precise 4` the claim asserts. -/
theorem compress_response_streaming_no_override :
    (compress_response ⟨[("Accept-Encoding", "br")]⟩
        ⟨200, [], none, Body.orig 0⟩ [] Level.Default).body =
      Body.brotliStream Level.Default (Body.orig 0) ∧
    Level.Default ≠ Level.Precise 4 := by decide

/-- C2 (amended): only the buffer path `compress_body` overrides a requested
default brotli level to the fixed numeric quality 4; it leaves an explicitly
numeric brotli level and every gzip level untouched, and the streaming path
`compress_response` hands its level to the encoder unchanged (also when it is
the default). -/
theorem brotli_default_override_buffer_only
    (encoderReads : CachedEncoding → Level → List ReadResult) (q : Int)
    (glevel : Level) (request : Request) (response : Response)
    (exclusions : List MediaType) (level : Level)
    (h1 : already_encoded response = false)
    (h2 : skip_encoding response.contentType exclusions = false)
    (hb : (accepted_algorithms request).2 = true) :
    compress_body encoderReads CachedEncoding.Brotli Level.Default =
      copyLoop [] (encoderReads CachedEncoding.Brotli (Level.Precise 4)) ∧
    compress_body encoderReads CachedEncoding.Brotli (Level.Precise q) =
      copyLoop [] (encoderReads CachedEncoding.Brotli (Level.Precise q)) ∧
    compress_body encoderReads CachedEncoding.Gzip glevel =
      copyLoop [] (encoderReads CachedEncoding.Gzip glevel) ∧
    (compress_response request response exclusions level).body =
      Body.brotliStream level response.body := by
  refine ⟨rfl, rfl, rfl, ?_⟩
  rw [compress_response_br_aux request response exclusions level h1 h2 hb]
  rfl

theorem brotli_default_override_buffer_only_witness :
    compress_body (fun _ _ => [Except.ok [9]]) CachedEncoding.Brotli
        Level.Default = copyLoop [] [Except.ok [9]] ∧
    compress_body (fun _ _ => [Except.ok [9]]) CachedEncoding.Brotli
        (Level.Precise 7) = copyLoop [] [Except.ok [9]] ∧
    compress_body (fun _ _ => [Except.ok [9]]) CachedEncoding.Gzip
        Level.Best = copyLoop [] [Except.ok [9]] ∧
    (compress_response ⟨[("Accept-Encoding", "br")]⟩
        ⟨200, [], none, Body.orig 2⟩ [] Level.Default).body =
      Body.brotliStream Level.Default (Body.orig 2) :=
  brotli_default_override_buffer_only (fun _ _ => [Except.ok [9]]) 7 Level.Best
    ⟨[("Accept-Encoding", "br")]⟩ ⟨200, [], none, Body.orig 2⟩ [] Level.Default
    (by decide) (by decide) (by decide)

/-- C7: when `compress_response` does compress, the `Content-Encoding` header
becomes exactly one canonical token (`["br"]` or `["gzip"]`, never anything
else), the body becomes the corresponding compressor stream over the original
body, and no other response state — status, content type, any other header —
is modified. -/
theorem compress_response_sets_single_token (request : Request)
    (response : Response) (exclusions : List MediaType) (level : Level)
    (h1 : already_encoded response = false)
    (h2 : skip_encoding response.contentType exclusions = false)
    (h3 : accepted_algorithms request ≠ (false, false)) :
    (compress_response request response exclusions level).status =
      response.status ∧
    (compress_response request response exclusions level).contentType =
      response.contentType ∧
    ((headersGet (compress_response request response exclusions level).headers
          "Content-Encoding" = ["br"] ∧
        (compress_response request response exclusions level).body =
          Body.brotliStream level response.body) ∨
      (headersGet (compress_response request response exclusions level).headers
          "Content-Encoding" = ["gzip"] ∧
        (compress_response request response exclusions level).body =
          Body.gzipStream level response.body)) ∧
    ∀ name, ucEq name CONTENT_ENCODING = false →
      headersGet (compress_response request response exclusions level).headers
          name =
        headersGet response.headers name := by
  cases hb : (accepted_algorithms request).2 with
  | true =>
    have heq := compress_response_br_aux request response exclusions level
      h1 h2 hb
    rw [heq]
    unfold set_body_and_encoding
    exact ⟨rfl, rfl,
      Or.inl ⟨headersGet_setHeader_same _ _ _ _ (by decide), rfl⟩,
      fun name hn => headersGet_setHeader_other _ _ _ _ hn⟩
  | false =>
    have hg : (accepted_algorithms request).1 = true := by
      cases hx : (accepted_algorithms request).1 with
      | true => rfl
      | false => exact absurd (Prod.ext_iff.mpr ⟨hx, hb⟩) h3
    have heq := compress_response_gz_aux request response exclusions level
      h1 h2 hg hb
    rw [heq]
    unfold set_body_and_encoding
    exact ⟨rfl, rfl,
      Or.inr ⟨headersGet_setHeader_same _ _ _ _ (by decide), rfl⟩,
      fun name hn => headersGet_setHeader_other _ _ _ _ hn⟩

theorem compress_response_sets_single_token_witness :
    (compress_response ⟨[("Accept-Encoding", "gzip")]⟩
        ⟨200, [("Server", "x")], none, Body.orig 0⟩ [] Level.Best).status =
      200 ∧
    headersGet (compress_response ⟨[("Accept-Encoding", "gzip")]⟩
        ⟨200, [("Server", "x")], none, Body.orig 0⟩ [] Level.Best).headers
        "Server" = ["x"] :=
  ⟨(compress_response_sets_single_token ⟨[("Accept-Encoding", "gzip")]⟩
      ⟨200, [("Server", "x")], none, Body.orig 0⟩ [] Level.Best
      (by decide) (by decide) (by decide)).1,
    (compress_response_sets_single_token ⟨[("Accept-Encoding", "gzip")]⟩
      ⟨200, [("Server", "x")], none, Body.orig 0⟩ [] Level.Best
      (by decide) (by decide) (by decide)).2.2.2 "Server" (by decide)⟩

/-- C8: `compress_body` surfaces any I/O failure raised while draining the
encoder as an error to the caller: the first failing read aborts the drain
with exactly that error, so no byte buffer — in particular no partially
filled one — is ever returned on failure. -/
theorem compress_body_error_propagates
    (encoderReads : CachedEncoding → Level → List ReadResult)
    (encoding : CachedEncoding) (level : Level)
    (pre rest : List ReadResult) (e : IOErr)
    (h : ∀ alg lvl, encoderReads alg lvl = pre ++ Except.error e :: rest)
    (hpre : ∀ r ∈ pre, ∃ chunk, r = Except.ok chunk) :
    compress_body encoderReads encoding level = Except.error e := by
  have key : ∀ (alg : CachedEncoding) (lvl : Level),
      copyLoop [] (encoderReads alg lvl) = Except.error e := by
    intro alg lvl
    rw [h]
    exact copyLoop_error _ _ _ _ hpre
  cases encoding with
  | Brotli => exact key _ _
  | Gzip => exact key _ _

theorem compress_body_error_propagates_witness :
    compress_body (fun _ _ => [Except.ok [1, 2], Except.error ⟨7⟩])
        CachedEncoding.Gzip Level.Default = Except.error ⟨7⟩ :=
  compress_body_error_propagates
    (fun _ _ => [Except.ok [1, 2], Except.error ⟨7⟩])
    CachedEncoding.Gzip Level.Default [Except.ok [1, 2]] [] ⟨7⟩
    (fun _ _ => rfl) (fun r hr => ⟨[1, 2], by simpa using hr⟩)

/-- C10: `compress_response` takes the body only after all negotiation checks
pass, so every invocation either leaves the response untouched or installs a
compressor-wrapped stream over the original body; the emptied placeholder
that the take produces never survives as the final body. -/
theorem compress_response_body_invariant (request : Request)
    (response : Response) (exclusions : List MediaType) (level : Level) :
    compress_response request response exclusions level = response ∨
    (compress_response request response exclusions level).body =
      Body.brotliStream level response.body ∨
    (compress_response request response exclusions level).body =
      Body.gzipStream level response.body := by
  by_cases h1 : already_encoded response = true
  · exact Or.inl (compress_response_noop_aux _ _ _ _ (Or.inl h1))
  by_cases h2 : skip_encoding response.contentType exclusions = true
  · exact Or.inl (compress_response_noop_aux _ _ _ _ (Or.inr (Or.inl h2)))
  cases hb : (accepted_algorithms request).2 with
  | true =>
    refine Or.inr (Or.inl ?_)
    rw [compress_response_br_aux request response exclusions level
      (bool_eq_false h1) (bool_eq_false h2) hb]
    rfl
  | false =>
    cases hg : (accepted_algorithms request).1 with
    | false =>
      exact Or.inl (compress_response_noop_aux _ _ _ _
        (Or.inr (Or.inr (Prod.ext_iff.mpr ⟨hg, hb⟩))))
    | true =>
      refine Or.inr (Or.inr ?_)
      rw [compress_response_gz_aux request response exclusions level
        (bool_eq_false h1) (bool_eq_false h2) hg hb]
      rfl

end RocketAsyncCompression
